import Mathlib

/-!
Verification of the Dragheim grid-room feature.

The development shallowly embeds the two source files of the repository:
`typeclasses/rooms.py` (the `GridRoom` typeclass: sparse grid storage, door
registry, layout generators, renderer) and `commands/command.py` (the `step`
command).  Python dictionaries are modelled as insertion-ordered association
lists, mutation as explicit state passing, and the `raise` in `add_door` as an
`Except` value.
-/

namespace Dragheim

/-- Model of a Python `dict`: the list of key/value entries in insertion
order.  The lists built by the embedded code never carry duplicate keys, but
the model does not assume this. -/
structure PyDict (α β : Type) where
  entries : List (α × β)
deriving DecidableEq

namespace PyDict

variable {α β : Type} [DecidableEq α]

/-- Python `d.get(k, None)`: the value at the first entry whose key is `k`. -/
def get? (d : PyDict α β) (k : α) : Option β :=
  (d.entries.find? (fun e => decide (e.1 = k))).map (fun e => e.2)

/-- Entry-list update backing the assignment `d[k] = v`: a Python dict keeps
an existing key at its insertion position and overwrites its value; a new key
is appended at the end. -/
def insertEntries : List (α × β) → α → β → List (α × β)
  | [], k, v => [(k, v)]
  | e :: es, k, v => if e.1 = k then (k, v) :: es else e :: insertEntries es k v

/-- Python `d[k] = v`. -/
def insert (d : PyDict α β) (k : α) (v : β) : PyDict α β :=
  ⟨insertEntries d.entries k v⟩

/-- Python `len(d)`. -/
def size (d : PyDict α β) : Nat := d.entries.length

/-- Python `list(d.keys())`. -/
def keys (d : PyDict α β) : List α := d.entries.map (fun e => e.1)

/-- Python `{}`. -/
def empty : PyDict α β := ⟨[]⟩

theorem get?_entries_insertEntries (l : List (α × β)) (k k' : α) (v : β) :
    ((insertEntries l k v).find? (fun e => decide (e.1 = k'))).map (fun e => e.2) =
      if k' = k then some v
      else (l.find? (fun e => decide (e.1 = k'))).map (fun e => e.2) := by
  induction l with
  | nil =>
    by_cases h : k' = k
    · simp [insertEntries, List.find?, h]
    · simp [insertEntries, List.find?, h, Ne.symm h]
  | cons e es ih =>
    by_cases hek : e.1 = k
    · by_cases h : k' = k
      · simp [insertEntries, hek, List.find?, h]
      · simp only [insertEntries, if_pos hek, if_neg h]
        have hk'
            : (List.find? (fun e => decide (e.1 = k')) ((k, v) :: es)) =
              List.find? (fun e => decide (e.1 = k')) es := by
          simp [List.find?, Ne.symm h]
        rw [hk']
        have he : (decide (e.1 = k')) = false := by
          simp [hek, Ne.symm h]
        simp [List.find?, he]
    · simp only [insertEntries, if_neg hek]
      by_cases he' : e.1 = k'
      · have h : ¬ (k' = k) := by
          intro hc; exact hek (he' ▸ hc)
        simp [List.find?, he', h]
      · simp only [List.find?_cons, decide_eq_true_eq, if_neg he']
        have he : (decide (e.1 = k')) = false := by simp [he']
        simp only [he]
        exact ih

theorem get?_insert (d : PyDict α β) (k k' : α) (v : β) :
    (d.insert k v).get? k' = if k' = k then some v else d.get? k' :=
  get?_entries_insertEntries d.entries k k' v

theorem get?_insert_self (d : PyDict α β) (k : α) (v : β) :
    (d.insert k v).get? k = some v := by
  rw [get?_insert, if_pos rfl]

theorem keys_insertEntries (l : List (α × β)) (k : α) (v : β) :
    (insertEntries l k v).map (fun e => e.1) =
      if k ∈ l.map (fun e => e.1) then l.map (fun e => e.1)
      else l.map (fun e => e.1) ++ [k] := by
  induction l with
  | nil => simp [insertEntries]
  | cons e es ih =>
    by_cases hek : e.1 = k
    · simp [insertEntries, hek]
    · simp only [insertEntries, if_neg hek, List.map_cons, ih, List.mem_cons]
      by_cases hmem : k ∈ es.map (fun e => e.1)
      · simp [hmem, Ne.symm hek]
      · simp [hmem, Ne.symm hek]

theorem keys_insert (d : PyDict α β) (k : α) (v : β) :
    (d.insert k v).keys = if k ∈ d.keys then d.keys else d.keys ++ [k] :=
  keys_insertEntries d.entries k v

theorem size_insert (d : PyDict α β) (k : α) (v : β) :
    (d.insert k v).size = if k ∈ d.keys then d.size else d.size + 1 := by
  have h : (d.insert k v).size = (d.insert k v).keys.length := by
    simp [size, keys]
  rw [h, keys_insert]
  by_cases hmem : k ∈ d.keys
  · rw [if_pos hmem, if_pos hmem]
    simp [size, keys]
  · rw [if_neg hmem, if_neg hmem]
    simp [size, keys]

theorem get?_isSome_iff_mem_keys (d : PyDict α β) (k : α) :
    (d.get? k).isSome ↔ k ∈ d.keys := by
  simp only [get?, keys]
  cases hfind : d.entries.find? (fun e => decide (e.1 = k)) with
  | none =>
    simp only [Option.map_none', Option.isSome_none, Bool.false_eq_true, false_iff]
    intro hmem
    rcases List.mem_map.mp hmem with ⟨e, hemem, he⟩
    have hne := List.find?_eq_none.mp hfind e hemem
    simp [he] at hne
  | some e =>
    simp only [Option.map_some', Option.isSome_some, true_iff]
    have hemem := List.mem_of_find?_eq_some hfind
    have hkey := List.find?_some hfind
    simp only [decide_eq_true_eq] at hkey
    exact hkey ▸ List.mem_map_of_mem _ hemem

/-- A left fold that repeatedly assigns `d[key c] = val c` reads back, at any
key, the value of the last element of the list written to that key. -/
theorem get?_foldl_insert {γ : Type} (l : List γ) (key : γ → α) (val : γ → β)
    (d : PyDict α β) (k : α) :
    (l.foldl (fun acc c => acc.insert (key c) (val c)) d).get? k =
      match l.reverse.find? (fun c => decide (key c = k)) with
      | some c => some (val c)
      | none => d.get? k := by
  induction l generalizing d with
  | nil => simp
  | cons c rest ih =>
    rw [List.foldl_cons, ih, List.reverse_cons, List.find?_append]
    cases hfind : rest.reverse.find? (fun c => decide (key c = k)) with
    | some c' => simp [Option.or]
    | none =>
      simp only [Option.or, get?_insert]
      by_cases hk : key c = k
      · simp [hk]
      · simp [hk, Ne.symm hk]

end PyDict

/-- Integer grid coordinate, the `(x, y)` tuples used as dict keys. -/
abbrev Coord := Int × Int

/-- Python `str.lower()`, character by character (the embedded code only
lowercases ASCII command tokens). -/
def pyLower (s : String) : String := ⟨s.data.map Char.toLower⟩

/-- Python `str.upper()`, character by character. -/
def pyUpper (s : String) : String := ⟨s.data.map Char.toUpper⟩

/-- Python `s[0]` on a string known to be nonempty (door directions); the
default is irrelevant and never reached by the embedded code. -/
def pyFirst (s : String) : Char := s.data.headD 'A'

/-- Python `str.strip()`: drop leading and trailing whitespace. -/
def pyStrip (s : String) : String :=
  ⟨((s.data.dropWhile Char.isWhitespace).reverse.dropWhile Char.isWhitespace).reverse⟩

/-- Record stored at `self.db.doors[direction]` by `add_door`. -/
structure DoorRec where
  grid_position : Coord
  destination : String
deriving DecidableEq

/-- State of a `GridRoom`: the `db.grid` and `db.doors` attribute stores
initialized by `at_object_creation`, plus the host-managed exit set that
`create_exit` consults and extends (modelled as direction ↦ destination). -/
structure GridRoom where
  grid : PyDict Coord String
  doors : PyDict String DoorRec
  exits : PyDict String String
deriving DecidableEq

/-- A freshly created `GridRoom`: `at_object_creation` initializes `grid` and
`doors` to empty dicts; no exits exist yet. -/
def GridRoom.created : GridRoom :=
  { grid := PyDict.empty, doors := PyDict.empty, exits := PyDict.empty }

/-- The `valid_directions` list of `GridRoom.add_door`. -/
def valid_directions : List String :=
  ["north", "south", "east", "west", "northeast", "northwest",
   "southeast", "southwest", "up", "down"]

/-- Models `GridRoom.create_exit`: creates an exit object only when
`self.exits.get(direction)` is falsy (no exit in that direction yet). -/
def GridRoom.create_exit (room : GridRoom) (direction destination : String) :
    GridRoom :=
  if (room.exits.get? direction).isSome then room
  else { room with exits := room.exits.insert direction destination }

/-- Models `GridRoom.add_door`.  The two `raise ValueError` branches become
`Except.error`; on success the door record is stored and `create_exit` runs. -/
def GridRoom.add_door (room : GridRoom) (direction : String)
    (grid_position : Coord) (destination : String) : Except String GridRoom :=
  if 10 ≤ room.doors.size then
    Except.error "Maximum number of doors (10) reached."
  else if direction ∉ valid_directions then
    Except.error ("Invalid direction: " ++ direction ++
      ". Valid directions are: " ++ String.intercalate ", " valid_directions ++ ".")
  else
    Except.ok
      (GridRoom.create_exit
        { room with
          doors := room.doors.insert direction
            { grid_position := grid_position, destination := destination } }
        direction destination)

/-- Models `GridRoom.set_grid_cell`; the source tests membership first, but
both branches perform the same assignment. -/
def GridRoom.set_grid_cell (room : GridRoom) (x y : Int) (content : String) :
    GridRoom :=
  if (room.grid.get? (x, y)).isNone then
    { room with grid := room.grid.insert (x, y) content }
  else
    { room with grid := room.grid.insert (x, y) content }

/-- Models `GridRoom.get_grid_cell`: `self.db.grid.get((x, y), None)`. -/
def GridRoom.get_grid_cell (room : GridRoom) (x y : Int) : Option String :=
  room.grid.get? (x, y)

/-- Python `range(a, -1, -1)` over integers: `a, a-1, ..., 0`, empty when
`a < 0`. -/
def downTo0 (a : Int) : List Int :=
  if a < 0 then [] else ((List.range (a.toNat + 1)).reverse).map (fun n => (n : Int))

/-- Python `range(a + 1)` over an integer bound: `0, 1, ..., a`, empty when
`a < 0`. -/
def upTo (a : Int) : List Int :=
  if a < 0 then [] else (List.range (a.toNat + 1)).map (fun n => (n : Int))

/-- Python `max(iterable)` on a list of integers; the renderer only applies it
to nonempty lists (Python would raise on an empty one). -/
def listMax : List Int → Int
  | [] => 0
  | x :: xs => xs.foldl max x

/-- Models `GridRoom.render_grid`: empty-grid message, bounding box from the
maximum keys, the `door_positions` dict comprehension (direction's uppercased
first letter), and the row-major accumulation of the output string. -/
def GridRoom.render_grid (room : GridRoom) : String :=
  if room.grid.entries.isEmpty then "The grid is empty."
  else
    let max_x := listMax (room.grid.keys.map (fun k => k.1))
    let max_y := listMax (room.grid.keys.map (fun k => k.2))
    let door_positions : PyDict Coord String :=
      room.doors.entries.foldl
        (fun acc e => acc.insert e.2.grid_position (String.singleton (pyFirst (pyUpper e.1))))
        PyDict.empty
    (downTo0 max_y).foldl
      (fun output y =>
        let row := (upTo max_x).foldl
          (fun row x =>
            let cell := (room.grid.get? (x, y)).getD " "
            match door_positions.get? (x, y) with
            | some letter => row ++ letter
            | none => row ++ cell)
          ""
        output ++ row ++ "\n")
      ""

/-- Shared shape of the generator loops
`for y in range(H): for x in range(W): grid[(x, y)] = f x y`
starting from a fresh dict. -/
def gridLoop (W H : Nat) (f : Nat → Nat → String) : PyDict Coord String :=
  (List.range H).foldl
    (fun (g : PyDict Coord String) (y : Nat) =>
      (List.range W).foldl
        (fun (g' : PyDict Coord String) (x : Nat) => g'.insert ((x : Int), (y : Int)) (f x y)) g)
    PyDict.empty

/-- Models `GridRoom.auto_build_grid`: `#` on the border, `.` inside. -/
def GridRoom.auto_build_grid (room : GridRoom) (width height : Nat) : GridRoom :=
  { room with
    grid := gridLoop width height (fun x y =>
      if x = 0 ∨ y = 0 ∨ x = width - 1 ∨ y = height - 1 then "#" else ".") }

/-- Models `GridRoom.build_circle`.  The source compares
`math.sqrt((x - center)**2 + (y - center)**2) <= radius`; for the integer
operands here this is the exact real inequality
`sqrt ((x-r)^2 + (y-r)^2) <= r`, which the embedding carries in its
equivalent squared integer form `(x-r)^2 + (y-r)^2 <= r^2`. -/
def GridRoom.build_circle (room : GridRoom) (radius : Nat) : GridRoom :=
  { room with
    grid := gridLoop (2 * radius + 1) (2 * radius + 1) (fun x y =>
      if ((x : Int) - (radius : Int)) ^ 2 + ((y : Int) - (radius : Int)) ^ 2 ≤
          (radius : Int) ^ 2
      then "." else "#") }

/-- Models `GridRoom.build_l_shape`: two walkable strips written into the
dict, then every unset cell of the bounding box filled with `#`. -/
def GridRoom.build_l_shape (room : GridRoom) (width height leg_length : Nat) :
    GridRoom :=
  let g1 := (List.range height).foldl
    (fun g y =>
      (List.range width).foldl
        (fun g' x => g'.insert ((x : Int), (y : Int)) ".") g)
    PyDict.empty
  let g2 := (List.range height).foldl
    (fun g y =>
      (List.range leg_length).foldl
        (fun g' x => g'.insert ((x : Int), (y : Int)) ".") g)
    g1
  let max_x := listMax (g2.keys.map (fun k => k.1))
  let max_y := listMax (g2.keys.map (fun k => k.2))
  let g3 := (upTo max_y).foldl
    (fun g y =>
      (upTo max_x).foldl
        (fun g' x => if (g'.get? (x, y)).isSome then g' else g'.insert (x, y) "#")
        g)
    g2
  { room with grid := g3 }

/-- Models `GridRoom.build_custom_floorplan`: rows are reversed so the first
string gets the highest `y`; iterating a Python string yields one-character
strings, modelled with `String.singleton`. -/
def GridRoom.build_custom_floorplan (room : GridRoom) (floorplan : List String) :
    GridRoom :=
  { room with
    grid := (floorplan.reverse.enum).foldl
      (fun g ye =>
        (ye.2.toList.enum).foldl
          (fun g' xe => g'.insert ((xe.1 : Int), (ye.1 : Int)) (String.singleton xe.2))
          g)
      PyDict.empty }

/-- Models `GridRoom.reset_grid`: clears the grid, refills it with the same
border/interior rule as `auto_build_grid`, and returns the confirmation
string. -/
def GridRoom.reset_grid (room : GridRoom) (width height : Nat) :
    GridRoom × String :=
  let g := (List.range height).foldl
    (fun g y =>
      (List.range width).foldl
        (fun g' x => g'.insert ((x : Int), (y : Int))
          (if x = 0 ∨ y = 0 ∨ x = width - 1 ∨ y = height - 1 then "#" else "."))
        g)
    PyDict.empty
  ({ room with grid := g },
    "The grid has been reset to " ++ toString width ++ "x" ++ toString height ++ ".")

/-- The caller's location as the step command sees it: `None`, an object that
is not (a subclass of) `GridRoom`, or a `GridRoom` with its state. -/
inductive Location where
  | nowhere
  | plainRoom
  | gridRoom (room : GridRoom)
deriving DecidableEq

/-- The caller of the step command: the avatar's `db.position` attribute
(`None` when unset) and its location. -/
structure Caller where
  position : Option Coord
  location : Location
deriving DecidableEq

/-- Result of one command invocation: the caller's state afterwards and the
lines sent with `caller.msg(...)`, in order. -/
structure StepOutcome where
  caller : Caller
  messages : List String
deriving DecidableEq

/-- The `directions` dict of `CmdStep.func`. -/
def directions : PyDict String Coord :=
  ⟨[("north", (0, 1)), ("south", (0, -1)), ("east", (1, 0)), ("west", (-1, 0))]⟩

/-- Python `f"{pos}"` for an integer pair. -/
def posToString (p : Coord) : String :=
  "(" ++ toString p.1 ++ ", " ++ toString p.2 ++ ")"

namespace CmdStep

/-- Models `CmdStep.parse`: `self.args.strip().lower()`. -/
def parse (args : String) : String := pyLower (pyStrip args)

/-- Models `CmdStep.func` given the parsed direction token.  The source
detects an unknown token, a non-GridRoom location, a `"W"` destination cell
and an unset destination cell, in that order; on success it stores the new
position and emits one or two messages. -/
def func (direction : String) (caller : Caller) : StepOutcome :=
  match directions.get? direction with
  | none => ⟨caller, ["Invalid direction! Use north, south, east, or west."]⟩
  | some off =>
    match caller.location with
    | Location.nowhere => ⟨caller, ["You cannot use 'step' here."]⟩
    | Location.plainRoom => ⟨caller, ["You cannot use 'step' here."]⟩
    | Location.gridRoom room =>
      let current_pos := caller.position.getD (0, 0)
      let new_pos : Coord := (current_pos.1 + off.1, current_pos.2 + off.2)
      match room.get_grid_cell new_pos.1 new_pos.2 with
      | some cell =>
        if cell = "W" then ⟨caller, ["You bump into a wall."]⟩
        else
          ⟨{ caller with position := some new_pos },
            ["You step " ++ direction ++ " to position " ++ posToString new_pos ++ "."] ++
              (if cell = "" then [] else ["You see: " ++ cell ++ "."])⟩
      | none => ⟨caller, ["You cannot go that way."]⟩

/-- The whole command invocation: parse, then func. -/
def run (args : String) (caller : Caller) : StepOutcome :=
  func (parse args) caller

end CmdStep

/-- The mutating surface of `GridRoom`, one constructor per public
operation (`render_grid` only reads). -/
inductive RoomOp where
  | setCell (x y : Int) (content : String)
  | addDoor (direction : String) (grid_position : Coord) (destination : String)
  | render
  | autoBuild (width height : Nat)
  | circle (radius : Nat)
  | lShape (width height leg_length : Nat)
  | floorplan (rows : List String)
  | reset (width height : Nat)

/-- Effect of a room operation on the room state; `add_door` raises before
any mutation, so on error the room is unchanged, and `render_grid` has no
effect. -/
def RoomOp.apply : RoomOp → GridRoom → GridRoom
  | RoomOp.setCell x y c, r => r.set_grid_cell x y c
  | RoomOp.addDoor d gp dest, r =>
    match r.add_door d gp dest with
    | Except.ok r' => r'
    | Except.error _ => r
  | RoomOp.render, r => r
  | RoomOp.autoBuild w h, r => r.auto_build_grid w h
  | RoomOp.circle rad, r => r.build_circle rad
  | RoomOp.lShape w h l, r => r.build_l_shape w h l
  | RoomOp.floorplan rows, r => r.build_custom_floorplan rows
  | RoomOp.reset w h, r => (r.reset_grid w h).1

/-- A room operation invoked on the room the player stands in: it can only
touch the location's room state. -/
def Caller.applyRoomOp (c : Caller) (op : RoomOp) : Caller :=
  { c with
    location :=
      match c.location with
      | Location.gridRoom r => Location.gridRoom (op.apply r)
      | l => l }

/-- A sequence of `set_grid_cell` calls, applied left to right. -/
def applySets (room : GridRoom) (ops : List (Int × Int × String)) : GridRoom :=
  ops.foldl (fun r op => r.set_grid_cell op.1 op.2.1 op.2.2) room

/-- Well-formedness of the door registry: every key is a recognized direction
and no direction occurs twice.  It holds for the empty registry and, as proved
below, is preserved by every operation. -/
def DoorsWF (room : GridRoom) : Prop :=
  (∀ k ∈ room.doors.keys, k ∈ valid_directions) ∧ room.doors.keys.Nodup

/-- Lookup after one row of a generator loop: the row `ry` gets the cells
`(0, ry) ... (W-1, ry)`; every other coordinate still reads from the
accumulator. -/
theorem rowFold_get (W ry : Nat) (f : Nat → Nat → String) (g : PyDict Coord String)
    (x y : Int) :
    ((List.range W).foldl
        (fun (g' : PyDict Coord String) (x' : Nat) =>
          g'.insert ((x' : Int), (ry : Int)) (f x' ry)) g).get? (x, y) =
      if 0 ≤ x ∧ x < (W : Int) ∧ y = (ry : Int) then some (f x.toNat ry)
      else g.get? (x, y) := by
  induction W with
  | zero =>
    simp only [List.range_zero, List.foldl_nil]
    rw [if_neg (by omega)]
  | succ W ih =>
    rw [List.range_succ, List.foldl_append, List.foldl_cons, List.foldl_nil,
      PyDict.get?_insert, ih]
    by_cases hx : (x, y) = ((W : Int), (ry : Int))
    · rw [if_pos hx]
      rw [Prod.mk.injEq] at hx
      rw [if_pos (by omega)]
      have hxt : x.toNat = W := by omega
      rw [hxt]
    · rw [if_neg hx]
      rw [Prod.mk.injEq] at hx
      by_cases hc : 0 ≤ x ∧ x < (W : Int) ∧ y = (ry : Int)
      · rw [if_pos hc, if_pos (by omega)]
      · rw [if_neg hc, if_neg (by omega)]

/-- Lookup in a fully generated `W × H` grid. -/
theorem gridLoop_get (W H : Nat) (f : Nat → Nat → String) (x y : Int) :
    (gridLoop W H f).get? (x, y) =
      if 0 ≤ x ∧ x < (W : Int) ∧ 0 ≤ y ∧ y < (H : Int) then some (f x.toNat y.toNat)
      else none := by
  induction H with
  | zero =>
    simp only [gridLoop, List.range_zero, List.foldl_nil]
    rw [if_neg (by omega)]
    rfl
  | succ H ih =>
    have hstep : gridLoop W (H + 1) f =
        (List.range W).foldl
          (fun (g' : PyDict Coord String) (x' : Nat) =>
            g'.insert ((x' : Int), (H : Int)) (f x' H))
          (gridLoop W H f) := by
      simp [gridLoop, List.range_succ]
    rw [hstep, rowFold_get, ih]
    by_cases h1 : 0 ≤ x ∧ x < (W : Int) ∧ y = (H : Int)
    · rw [if_pos h1, if_pos (by omega)]
      rw [show y.toNat = H from by omega]
    · rw [if_neg h1]
      by_cases h2 : 0 ≤ x ∧ x < (W : Int) ∧ 0 ≤ y ∧ y < (H : Int)
      · rw [if_pos h2, if_pos (by omega)]
      · rw [if_neg h2, if_neg (by omega)]

/-- C3: after `auto_build_grid(w, h)` with `w, h` positive, the grid holds
exactly the cells `(x, y)` with `0 ≤ x < w`, `0 ≤ y < h`; border cells hold
the wall symbol `#` and interior cells the walkable symbol `.`. -/
theorem auto_build_grid_spec (room : GridRoom) (w h : Nat) (hw : 0 < w) (hh : 0 < h)
    (x y : Int) :
    (room.auto_build_grid w h).grid.get? (x, y) =
      if 0 ≤ x ∧ x < (w : Int) ∧ 0 ≤ y ∧ y < (h : Int) then
        some (if x = 0 ∨ y = 0 ∨ x = (w : Int) - 1 ∨ y = (h : Int) - 1 then "#" else ".")
      else none := by
  show (gridLoop w h _).get? (x, y) = _
  rw [gridLoop_get]
  by_cases hb : 0 ≤ x ∧ x < (w : Int) ∧ 0 ≤ y ∧ y < (h : Int)
  · rw [if_pos hb, if_pos hb]
    congr 1
    have hiff : (x.toNat = 0 ∨ y.toNat = 0 ∨ x.toNat = w - 1 ∨ y.toNat = h - 1) ↔
        (x = 0 ∨ y = 0 ∨ x = (w : Int) - 1 ∨ y = (h : Int) - 1) := by omega
    exact if_congr hiff rfl rfl
  · rw [if_neg hb, if_neg hb]

/-- C3 witness: in a 5×5 auto-built room, the interior cell (1, 2) is
walkable and the border cell (0, 2) is wall; (5, 2) lies outside. -/
theorem auto_build_grid_spec_witness :
    (GridRoom.created.auto_build_grid 5 5).grid.get? (1, 2) = some "."
    ∧ (GridRoom.created.auto_build_grid 5 5).grid.get? (0, 2) = some "#"
    ∧ (GridRoom.created.auto_build_grid 5 5).grid.get? (5, 2) = none :=
  ⟨(auto_build_grid_spec GridRoom.created 5 5 (by decide) (by decide) 1 2).trans (by decide),
   (auto_build_grid_spec GridRoom.created 5 5 (by decide) (by decide) 0 2).trans (by decide),
   (auto_build_grid_spec GridRoom.created 5 5 (by decide) (by decide) 5 2).trans (by decide)⟩

/-- The source's `math.sqrt(dx**2 + dy**2) <= radius` on integer data is the
squared comparison carried by the embedding. -/
theorem sqrt_test_eq_sq_test (X Y : Int) (r : Nat) :
    ((X - (r : Int)) ^ 2 + (Y - (r : Int)) ^ 2 ≤ (r : Int) ^ 2) ↔
      Real.sqrt (((X : ℝ) - (r : ℝ)) ^ 2 + ((Y : ℝ) - (r : ℝ)) ^ 2) ≤ (r : ℝ) := by
  rw [Real.sqrt_le_left (Nat.cast_nonneg r)]
  constructor
  · intro hle
    exact_mod_cast hle
  · intro hle
    exact_mod_cast hle

/-- C4: after `build_circle(r)` the grid is exactly the `(2r+1) × (2r+1)`
bounding square; a cell is the walkable `.` iff its Euclidean distance from
the centre `(r, r)` is at most `r` (closed disk), and every other cell of the
square is the wall `#`. -/
theorem build_circle_spec (room : GridRoom) (r : Nat) (x y : Int) :
    (((room.build_circle r).grid.get? (x, y)).isSome ↔
        0 ≤ x ∧ x ≤ 2 * (r : Int) ∧ 0 ≤ y ∧ y ≤ 2 * (r : Int))
  ∧ ((room.build_circle r).grid.get? (x, y) = some "." ↔
        (0 ≤ x ∧ x ≤ 2 * (r : Int) ∧ 0 ≤ y ∧ y ≤ 2 * (r : Int) ∧
          Real.sqrt (((x : ℝ) - (r : ℝ)) ^ 2 + ((y : ℝ) - (r : ℝ)) ^ 2) ≤ (r : ℝ)))
  ∧ (0 ≤ x → x ≤ 2 * (r : Int) → 0 ≤ y → y ≤ 2 * (r : Int) →
        (room.build_circle r).grid.get? (x, y) =
          some (if (x - (r : Int)) ^ 2 + (y - (r : Int)) ^ 2 ≤ (r : Int) ^ 2
                then "." else "#")) := by
  have hget : (room.build_circle r).grid.get? (x, y) =
      if 0 ≤ x ∧ x < ((2 * r + 1 : Nat) : Int) ∧ 0 ≤ y ∧ y < ((2 * r + 1 : Nat) : Int) then
        some (if ((x.toNat : Int) - (r : Int)) ^ 2 + ((y.toNat : Int) - (r : Int)) ^ 2 ≤
                (r : Int) ^ 2 then "." else "#")
      else none := gridLoop_get (2 * r + 1) (2 * r + 1) _ x y
  refine ⟨?_, ?_, ?_⟩
  · rw [hget]
    by_cases hb : 0 ≤ x ∧ x < ((2 * r + 1 : Nat) : Int) ∧ 0 ≤ y ∧ y < ((2 * r + 1 : Nat) : Int)
    · rw [if_pos hb]
      constructor
      · intro _
        omega
      · intro _
        rfl
    · rw [if_neg hb]
      simp only [Option.isSome_none, Bool.false_eq_true, false_iff]
      omega
  · rw [hget]
    by_cases hb : 0 ≤ x ∧ x < ((2 * r + 1 : Nat) : Int) ∧ 0 ≤ y ∧ y < ((2 * r + 1 : Nat) : Int)
    · have hx : ((x.toNat : Int)) = x := Int.toNat_of_nonneg (by omega)
      have hy : ((y.toNat : Int)) = y := Int.toNat_of_nonneg (by omega)
      rw [if_pos hb, hx, hy]
      by_cases hc : (x - (r : Int)) ^ 2 + (y - (r : Int)) ^ 2 ≤ (r : Int) ^ 2
      · rw [if_pos hc]
        constructor
        · intro _
          exact ⟨by omega, by omega, by omega, by omega, (sqrt_test_eq_sq_test x y r).mp hc⟩
        · intro _
          rfl
      · rw [if_neg hc]
        constructor
        · intro hcl
          exact absurd (Option.some.inj hcl) (by decide)
        · intro hcl
          exact absurd ((sqrt_test_eq_sq_test x y r).mpr hcl.2.2.2.2) hc
    · rw [if_neg hb]
      constructor
      · intro hcl
        exact Option.noConfusion hcl
      · intro hcl
        obtain ⟨c1, c2, c3, c4, _⟩ := hcl
        exact absurd (by omega) hb
  · intro h1 h2 h3 h4
    have hx : ((x.toNat : Int)) = x := Int.toNat_of_nonneg h1
    have hy : ((y.toNat : Int)) = y := Int.toNat_of_nonneg h3
    rw [hget, if_pos (by omega), hx, hy]

/-- C4 witness: with radius 1, the boundary cell (1, 2) at distance exactly 1
is walkable and the corner (0, 0) at distance √2 is wall. -/
theorem build_circle_spec_witness :
    (GridRoom.created.build_circle 1).grid.get? (1, 2) = some "."
    ∧ (GridRoom.created.build_circle 1).grid.get? (0, 0) = some "#"
    ∧ (GridRoom.created.build_circle 1).grid.get? (3, 0) = none :=
  ⟨((build_circle_spec GridRoom.created 1 1 2).2.2 (by decide) (by decide) (by decide)
      (by decide)).trans (by decide),
   ((build_circle_spec GridRoom.created 1 0 0).2.2 (by decide) (by decide) (by decide)
      (by decide)).trans (by decide),
   by
    have h := (build_circle_spec GridRoom.created 1 3 0).1
    cases hv : (GridRoom.created.build_circle 1).grid.get? (3, 0) with
    | none => rfl
    | some v =>
      have := h.mp (by rw [hv]; rfl)
      omega⟩

/-- C8: `reset_grid` rebuilds exactly the grid `auto_build_grid` builds for
the same dimensions (same key set, `#` border, `.` interior) and returns the
confirmation string naming the new dimensions. -/
theorem reset_grid_spec (room : GridRoom) (w h : Nat) :
    (room.reset_grid w h).1.grid = (room.auto_build_grid w h).grid
  ∧ (room.reset_grid w h).2 =
      "The grid has been reset to " ++ toString w ++ "x" ++ toString h ++ "." :=
  ⟨rfl, rfl⟩

theorem get_set_grid_cell (room : GridRoom) (a b x y : Int) (content : String) :
    (room.set_grid_cell a b content).get_grid_cell x y =
      if (x, y) = ((a, b) : Coord) then some content else room.get_grid_cell x y := by
  unfold GridRoom.set_grid_cell GridRoom.get_grid_cell
  split
  · exact PyDict.get?_insert room.grid (a, b) (x, y) content
  · exact PyDict.get?_insert room.grid (a, b) (x, y) content

theorem applySets_get (room : GridRoom) (ops : List (Int × Int × String)) (x y : Int) :
    (applySets room ops).get_grid_cell x y =
      match ops.reverse.find? (fun op => decide (op.1 = x ∧ op.2.1 = y)) with
      | some op => some op.2.2
      | none => room.get_grid_cell x y := by
  induction ops generalizing room with
  | nil => simp [applySets]
  | cons op rest ih =>
    rw [show applySets room (op :: rest) =
          applySets (room.set_grid_cell op.1 op.2.1 op.2.2) rest from rfl,
      ih, List.reverse_cons, List.find?_append]
    cases hfind : rest.reverse.find? (fun o => decide (o.1 = x ∧ o.2.1 = y)) with
    | some o => simp [Option.or]
    | none =>
      simp only [Option.or]
      rw [get_set_grid_cell]
      by_cases hxy : op.1 = x ∧ op.2.1 = y
      · rw [if_pos (by rw [Prod.mk.injEq]; exact ⟨hxy.1.symm, hxy.2.symm⟩)]
        simp [List.find?, hxy]
      · rw [if_neg (by rw [Prod.mk.injEq]; rintro ⟨ha, hb⟩; exact hxy ⟨ha.symm, hb.symm⟩)]
        simp [List.find?, hxy]

/-- C6: starting from a fresh room, any coordinate never targeted by a
`set_grid_cell` call reads as the absent sentinel, and otherwise
`get_grid_cell` returns the most recently set content; moreover a single
`set_grid_cell` overwrites unconditionally, whatever the prior cell state. -/
theorem grid_get_set_spec (ops : List (Int × Int × String)) (x y : Int) :
    ((applySets GridRoom.created ops).get_grid_cell x y =
        (ops.reverse.find? (fun op => decide (op.1 = x ∧ op.2.1 = y))).map
          (fun op => op.2.2))
  ∧ (∀ (room : GridRoom) (content : String),
        (room.set_grid_cell x y content).get_grid_cell x y = some content) := by
  constructor
  · rw [applySets_get]
    cases hfind : ops.reverse.find? (fun op => decide (op.1 = x ∧ op.2.1 = y)) with
    | some op => simp
    | none => simp [GridRoom.created, GridRoom.get_grid_cell, PyDict.get?, PyDict.empty]
  · intro room content
    rw [get_set_grid_cell, if_pos rfl]

/-- Every offset in the `directions` table moves by a nonzero amount. -/
theorem directions_offset_ne_zero (s : String) (off : Coord)
    (h : directions.get? s = some off) : off ≠ (0, 0) := by
  simp only [PyDict.get?, Option.map_eq_some'] at h
  obtain ⟨e, hfind, he⟩ := h
  have hmem := List.mem_of_find?_eq_some hfind
  simp only [directions, List.mem_cons, List.not_mem_nil, or_false] at hmem
  rcases hmem with h1 | h1 | h1 | h1 <;> rw [h1] at he <;> rw [← he] <;> decide

/-- C1: when the parsed token is a recognized direction, the location is a
GridRoom, and the destination cell (current position, default `(0, 0)`, plus
the direction's unit offset) is set and is not `"W"`, the step command stores
exactly the summed position, emits a confirmation naming the new coordinate,
and emits the cell content as an extra line when it is non-empty. -/
theorem cmdStep_success_spec (args : String) (off : Coord) (caller : Caller)
    (room : GridRoom) (cell : String)
    (hdir : directions.get? (CmdStep.parse args) = some off)
    (hloc : caller.location = Location.gridRoom room)
    (hcell : room.get_grid_cell ((caller.position.getD (0, 0)).1 + off.1)
        ((caller.position.getD (0, 0)).2 + off.2) = some cell)
    (hW : cell ≠ "W") :
    (CmdStep.run args caller).caller.position =
        some ((caller.position.getD (0, 0)).1 + off.1,
          (caller.position.getD (0, 0)).2 + off.2)
  ∧ (CmdStep.run args caller).caller.location = caller.location
  ∧ (CmdStep.run args caller).messages =
      ["You step " ++ CmdStep.parse args ++ " to position " ++
          posToString ((caller.position.getD (0, 0)).1 + off.1,
            (caller.position.getD (0, 0)).2 + off.2) ++ "."] ++
        (if cell = "" then [] else ["You see: " ++ cell ++ "."]) := by
  unfold CmdStep.run CmdStep.func
  rw [hdir, hloc]
  simp only [hcell, if_neg hW]
  exact ⟨trivial, trivial, trivial⟩

/-- C1 witness: in a 5×5 auto-built room, a player at (1, 1) stepping north
lands on (1, 2), whose cell is the walkable interior symbol. -/
theorem cmdStep_success_spec_witness :
    (CmdStep.run "north"
        ⟨some (1, 1), Location.gridRoom (GridRoom.created.auto_build_grid 5 5)⟩).caller.position
        = some (1, 2)
    ∧ (GridRoom.created.auto_build_grid 5 5).get_grid_cell 1 2 = some "." := by
  refine ⟨?_, by decide⟩
  have h := cmdStep_success_spec "north" (0, 1)
    ⟨some (1, 1), Location.gridRoom (GridRoom.created.auto_build_grid 5 5)⟩
    (GridRoom.created.auto_build_grid 5 5) "." (by decide) rfl (by decide) (by decide)
  exact h.1

/-- C2: the step command aborts with the caller fully unchanged and the
matching corrective message when the token is unrecognized, the location is
not a GridRoom, the destination cell is the wall marker `"W"`, or the
destination cell is unset — and the caller is left unchanged exactly when one
of these rejection conditions holds. -/
theorem cmdStep_rejection_spec (args : String) (caller : Caller) :
    (directions.get? (CmdStep.parse args) = none →
        CmdStep.run args caller =
          ⟨caller, ["Invalid direction! Use north, south, east, or west."]⟩)
  ∧ (∀ off : Coord, directions.get? (CmdStep.parse args) = some off →
        (∀ room : GridRoom, caller.location ≠ Location.gridRoom room) →
        CmdStep.run args caller = ⟨caller, ["You cannot use 'step' here."]⟩)
  ∧ (∀ (off : Coord) (room : GridRoom),
        directions.get? (CmdStep.parse args) = some off →
        caller.location = Location.gridRoom room →
        room.get_grid_cell ((caller.position.getD (0, 0)).1 + off.1)
            ((caller.position.getD (0, 0)).2 + off.2) = some "W" →
        CmdStep.run args caller = ⟨caller, ["You bump into a wall."]⟩)
  ∧ (∀ (off : Coord) (room : GridRoom),
        directions.get? (CmdStep.parse args) = some off →
        caller.location = Location.gridRoom room →
        room.get_grid_cell ((caller.position.getD (0, 0)).1 + off.1)
            ((caller.position.getD (0, 0)).2 + off.2) = none →
        CmdStep.run args caller = ⟨caller, ["You cannot go that way."]⟩)
  ∧ ((CmdStep.run args caller).caller = caller ↔
        (directions.get? (CmdStep.parse args) = none
          ∨ (∀ room : GridRoom, caller.location ≠ Location.gridRoom room)
          ∨ (∃ (off : Coord) (room : GridRoom),
              directions.get? (CmdStep.parse args) = some off ∧
              caller.location = Location.gridRoom room ∧
              (room.get_grid_cell ((caller.position.getD (0, 0)).1 + off.1)
                  ((caller.position.getD (0, 0)).2 + off.2) = some "W" ∨
                room.get_grid_cell ((caller.position.getD (0, 0)).1 + off.1)
                  ((caller.position.getD (0, 0)).2 + off.2) = none)))) := by
  cases hdir : directions.get? (CmdStep.parse args) with
  | none =>
    refine ⟨fun _ => ?_, ?_, ?_, ?_, ?_⟩
    · unfold CmdStep.run CmdStep.func
      rw [hdir]
    · intro off hoff _
      exact Option.noConfusion hoff
    · intro off room hoff _ _
      exact Option.noConfusion hoff
    · intro off room hoff _ _
      exact Option.noConfusion hoff
    · constructor
      · intro _
        exact Or.inl rfl
      · intro _
        unfold CmdStep.run CmdStep.func
        rw [hdir]
  | some off0 =>
    cases hl : caller.location with
    | nowhere =>
      refine ⟨?_, fun _ _ _ => ?_, ?_, ?_, ?_⟩
      · intro h
        exact Option.noConfusion h
      · unfold CmdStep.run CmdStep.func
        rw [hdir, hl]
      · intro off room _ hlocEq _
        exact Location.noConfusion hlocEq
      · intro off room _ hlocEq _
        exact Location.noConfusion hlocEq
      · constructor
        · intro _
          refine Or.inr (Or.inl ?_)
          intro room hc
          exact Location.noConfusion hc
        · intro _
          unfold CmdStep.run CmdStep.func
          rw [hdir, hl]
    | plainRoom =>
      refine ⟨?_, fun _ _ _ => ?_, ?_, ?_, ?_⟩
      · intro h
        exact Option.noConfusion h
      · unfold CmdStep.run CmdStep.func
        rw [hdir, hl]
      · intro off room _ hlocEq _
        exact Location.noConfusion hlocEq
      · intro off room _ hlocEq _
        exact Location.noConfusion hlocEq
      · constructor
        · intro _
          refine Or.inr (Or.inl ?_)
          intro room hc
          exact Location.noConfusion hc
        · intro _
          unfold CmdStep.run CmdStep.func
          rw [hdir, hl]
    | gridRoom room =>
      have hrun : CmdStep.run args caller =
          match room.get_grid_cell ((caller.position.getD (0, 0)).1 + off0.1)
              ((caller.position.getD (0, 0)).2 + off0.2) with
          | some cell =>
            if cell = "W" then ⟨caller, ["You bump into a wall."]⟩
            else
              ⟨{ caller with position := some ((caller.position.getD (0, 0)).1 + off0.1,
                  (caller.position.getD (0, 0)).2 + off0.2) },
                ["You step " ++ CmdStep.parse args ++ " to position " ++
                    posToString ((caller.position.getD (0, 0)).1 + off0.1,
                      (caller.position.getD (0, 0)).2 + off0.2) ++ "."] ++
                  (if cell = "" then []
                    else ["You see: " ++ cell ++ "."])⟩
          | none => ⟨caller, ["You cannot go that way."]⟩ := by
        unfold CmdStep.run CmdStep.func
        rw [hdir, hl]
      refine ⟨?_, ?_, ?_, ?_, ?_⟩
      · intro h
        exact Option.noConfusion h
      · intro off hoff hnot
        exact absurd rfl (hnot room)
      · intro off room2 hoff hlocEq hW
        cases Option.some.inj hoff
        injection hlocEq with hr
        subst hr
        rw [hrun, hW]
        simp
      · intro off room2 hoff hlocEq hnone
        cases Option.some.inj hoff
        injection hlocEq with hr
        subst hr
        rw [hrun, hnone]

      · cases hcell : room.get_grid_cell ((caller.position.getD (0, 0)).1 + off0.1)
            ((caller.position.getD (0, 0)).2 + off0.2) with
        | some cell =>
          by_cases hW : cell = "W"
          · constructor
            · intro _
              exact Or.inr (Or.inr ⟨off0, room, rfl, rfl, Or.inl (hW ▸ hcell)⟩)
            · intro _
              rw [hrun, hcell]
              simp [hW]
          · constructor
            · intro h
              exfalso
              have hsucc : (CmdStep.run args caller).caller =
                  { caller with position := some ((caller.position.getD (0, 0)).1 + off0.1,
                      (caller.position.getD (0, 0)).2 + off0.2) } := by
                rw [hrun, hcell]
                simp [hW]
              rw [hsucc] at h
              have hp : some ((caller.position.getD (0, 0)).1 + off0.1,
                  (caller.position.getD (0, 0)).2 + off0.2) = caller.position :=
                congrArg Caller.position h
              cases hpos : caller.position with
              | none =>
                rw [hpos] at hp
                exact Option.noConfusion hp
              | some p =>
                rw [hpos] at hp
                simp only [Option.getD_some] at hp
                have hinj := Option.some.inj hp
                rw [Prod.mk.injEq] at hinj
                have hzero : off0 = ((0 : Int), (0 : Int)) := by
                  have h1 : off0.1 = 0 := by omega
                  have h2 : off0.2 = 0 := by omega
                  exact Prod.ext h1 h2
                exact directions_offset_ne_zero (CmdStep.parse args) off0 hdir hzero
            · intro hrhs
              exfalso
              rcases hrhs with h1 | h2 | ⟨off, room2, hoff, hlocEq, hcases⟩
              · exact Option.noConfusion h1
              · exact absurd rfl (h2 room)
              · cases Option.some.inj hoff
                injection hlocEq with hr
                subst hr
                rw [hcell] at hcases
                rcases hcases with hc | hc
                · exact hW (Option.some.inj hc)
                · exact Option.noConfusion hc
        | none =>
          constructor
          · intro _
            exact Or.inr (Or.inr ⟨off0, room, rfl, rfl, Or.inr hcell⟩)
          · intro _
            rw [hrun, hcell]
/-- C2 witness: a player at (0, 0) in a 5×5 auto-built room stepping west is
rejected — the destination (-1, 0) is unset — with the cannot-go message and
an unchanged caller. -/
theorem cmdStep_rejection_spec_witness :
    CmdStep.run "west"
        ⟨some (0, 0), Location.gridRoom (GridRoom.created.auto_build_grid 5 5)⟩ =
      ⟨⟨some (0, 0), Location.gridRoom (GridRoom.created.auto_build_grid 5 5)⟩,
        ["You cannot go that way."]⟩ :=
  (cmdStep_rejection_spec "west"
      ⟨some (0, 0), Location.gridRoom (GridRoom.created.auto_build_grid 5 5)⟩).2.2.2.1
    (-1, 0) (GridRoom.created.auto_build_grid 5 5) (by decide) rfl (by decide)

theorem create_exit_doors (room : GridRoom) (d dest : String) :
    (room.create_exit d dest).doors = room.doors := by
  unfold GridRoom.create_exit
  split
  · rfl
  · rfl

theorem create_exit_grid (room : GridRoom) (d dest : String) :
    (room.create_exit d dest).grid = room.grid := by
  unfold GridRoom.create_exit
  split
  · rfl
  · rfl

/-- C5: `add_door` raises once the registry holds 10 doors, raises on an
unrecognized direction, and otherwise records the door under its direction —
for an arbitrary grid position, with no bounds check and no exclusivity over
positions — and materializes the exit when none exists in that direction. -/
theorem add_door_spec (room : GridRoom) (direction : String) (gp : Coord)
    (dest : String) :
    (10 ≤ room.doors.size →
        room.add_door direction gp dest =
          Except.error "Maximum number of doors (10) reached.")
  ∧ (room.doors.size < 10 → direction ∉ valid_directions →
        room.add_door direction gp dest =
          Except.error ("Invalid direction: " ++ direction ++
            ". Valid directions are: " ++
            String.intercalate ", " valid_directions ++ "."))
  ∧ (room.doors.size < 10 → direction ∈ valid_directions →
        ∃ room', room.add_door direction gp dest = Except.ok room'
          ∧ room'.doors.get? direction = some ⟨gp, dest⟩
          ∧ (∀ d : String, d ≠ direction → room'.doors.get? d = room.doors.get? d)
          ∧ room'.grid = room.grid
          ∧ (room.exits.get? direction = none →
              room'.exits.get? direction = some dest)
          ∧ ((room.exits.get? direction).isSome → room'.exits = room.exits)) := by
  refine ⟨?_, ?_, ?_⟩
  · intro h10
    unfold GridRoom.add_door
    rw [if_pos h10]
  · intro h10 hdir
    unfold GridRoom.add_door
    rw [if_neg (by omega), if_pos hdir]
  · intro h10 hdir
    unfold GridRoom.add_door
    rw [if_neg (by omega), if_neg (not_not_intro hdir)]
    refine ⟨_, rfl, ?_, ?_, ?_, ?_, ?_⟩
    · rw [create_exit_doors]
      show (room.doors.insert direction ⟨gp, dest⟩).get? direction = some ⟨gp, dest⟩
      exact PyDict.get?_insert_self room.doors direction ⟨gp, dest⟩
    · intro d hne
      rw [create_exit_doors]
      show (room.doors.insert direction ⟨gp, dest⟩).get? d = room.doors.get? d
      rw [PyDict.get?_insert, if_neg hne]
    · rw [create_exit_grid]
    · intro hnone
      simp only [GridRoom.create_exit]
      rw [if_neg (by simp [hnone])]
      exact PyDict.get?_insert_self _ direction dest
    · intro hsome
      simp only [GridRoom.create_exit]
      rw [if_pos (by simpa using hsome)]

/-- C5 witness: on a fresh room, adding a north door at (2, 3) succeeds and
exhibits every success clause, including exit creation. -/
theorem add_door_spec_witness :
    ∃ room', GridRoom.created.add_door "north" (2, 3) "hall" = Except.ok room'
      ∧ room'.doors.get? "north" = some ⟨(2, 3), "hall"⟩
      ∧ (∀ d : String, d ≠ "north" →
          room'.doors.get? d = GridRoom.created.doors.get? d)
      ∧ room'.grid = GridRoom.created.grid
      ∧ (GridRoom.created.exits.get? "north" = none →
          room'.exits.get? "north" = some "hall")
      ∧ ((GridRoom.created.exits.get? "north").isSome →
          room'.exits = GridRoom.created.exits) :=
  (add_door_spec GridRoom.created "north" (2, 3) "hall").2.2 (by decide) (by decide)

/-- C9: every room operation leaves the player's stored position untouched,
and a step invocation — successful or not — leaves the location, hence the
room's grid and door registry, untouched (on success only the caller's
position changes). -/
theorem frame_spec (op : RoomOp) (c : Caller) (args : String) :
    (c.applyRoomOp op).position = c.position
  ∧ (CmdStep.run args c).caller.location = c.location := by
  refine ⟨rfl, ?_⟩
  unfold CmdStep.run CmdStep.func
  cases directions.get? (CmdStep.parse args) with
  | none => rfl
  | some off =>
    cases hl : c.location with
    | nowhere => exact hl
    | plainRoom => exact hl
    | gridRoom room =>
      dsimp only
      split
      · split
        · exact hl
        · rfl
      · exact hl

theorem set_grid_cell_doors (room : GridRoom) (x y : Int) (c : String) :
    (room.set_grid_cell x y c).doors = room.doors := by
  unfold GridRoom.set_grid_cell
  split
  · rfl
  · rfl

/-- String append acts on the underlying character lists. -/
theorem string_data_append (a b : String) : (a ++ b).data = a.data ++ b.data := rfl

/-- The invalid-direction message never coincides with the door-limit
message. -/
theorem invalid_ne_max (direction : String) :
    ("Invalid direction: " ++ direction ++ ". Valid directions are: " ++
        String.intercalate ", " valid_directions ++ ".") ≠
      "Maximum number of doors (10) reached." := by
  intro h
  have hdata := congrArg String.data h
  simp only [string_data_append] at hdata
  have hh := congrArg List.head? hdata
  simp only [List.cons_append, List.head?_cons] at hh
  exact absurd (Option.some.inj hh) (by decide)

/-- Success analysis of `add_door`: the checks passed and the door record was
inserted. -/
theorem add_door_ok_doors (room : GridRoom) (direction : String) (gp : Coord)
    (dest : String) (room' : GridRoom)
    (h : room.add_door direction gp dest = Except.ok room') :
    room'.doors = room.doors.insert direction ⟨gp, dest⟩
    ∧ direction ∈ valid_directions ∧ room.doors.size < 10
    ∧ room'.exits = (if (room.exits.get? direction).isSome then room.exits
        else room.exits.insert direction dest) := by
  unfold GridRoom.add_door at h
  by_cases h10 : 10 ≤ room.doors.size
  · rw [if_pos h10] at h
    exact Except.noConfusion h
  · rw [if_neg h10] at h
    by_cases hv : direction ∉ valid_directions
    · rw [if_pos hv] at h
      exact Except.noConfusion h
    · rw [if_neg hv] at h
      cases Except.ok.inj h
      refine ⟨?_, not_not.mp hv, by omega, ?_⟩
      · rw [create_exit_doors]
      · show (GridRoom.create_exit
            { room with doors := room.doors.insert direction ⟨gp, dest⟩ }
            direction dest).exits = _
        unfold GridRoom.create_exit
        by_cases hc : (room.exits.get? direction).isSome
        · rw [if_pos hc, if_pos hc]
        · rw [if_neg hc, if_neg hc]

/-- C10: under the registry invariant (keys are recognized directions,
no duplicates) the registry holds at most 10 doors; every operation preserves
the invariant; re-adding a direction that already has a door replaces its
record without growing the registry and without touching an existing exit;
and the door-limit error is only raised when every recognized direction
already carries a door. -/
theorem door_registry_invariant (room : GridRoom) (hwf : DoorsWF room) :
    room.doors.size ≤ 10
  ∧ (∀ op : RoomOp, DoorsWF (op.apply room))
  ∧ (∀ (direction : String) (gp : Coord) (dest : String) (room' : GridRoom),
        (room.doors.get? direction).isSome →
        room.add_door direction gp dest = Except.ok room' →
        room'.doors.keys = room.doors.keys
        ∧ room'.doors.size = room.doors.size
        ∧ ((room.exits.get? direction).isSome → room'.exits = room.exits))
  ∧ (∀ (direction : String) (gp : Coord) (dest : String),
        room.add_door direction gp dest =
          Except.error "Maximum number of doors (10) reached." →
        ∀ d ∈ valid_directions, (room.doors.get? d).isSome) := by
  have hkeyslen : room.doors.keys.length = room.doors.size := by
    simp [PyDict.keys, PyDict.size]
  have hsub : room.doors.keys ⊆ valid_directions := fun k hk => hwf.1 k hk
  have hsubperm := List.subperm_of_subset hwf.2 hsub
  have hle : room.doors.size ≤ 10 := by
    have := hsubperm.length_le
    rw [hkeyslen] at this
    simpa [valid_directions] using this
  refine ⟨hle, ?_, ?_, ?_⟩
  · intro op
    cases op with
    | setCell x y c =>
      unfold DoorsWF
      rw [show (RoomOp.apply (RoomOp.setCell x y c) room).doors = room.doors from
        set_grid_cell_doors room x y c]
      exact hwf
    | addDoor d gp dest =>
      dsimp only [RoomOp.apply]
      cases hok : room.add_door d gp dest with
      | error e => exact hwf
      | ok room' =>
        obtain ⟨hdoors, hvalid, hsize, _⟩ := add_door_ok_doors room d gp dest room' hok
        unfold DoorsWF
        rw [hdoors, PyDict.keys_insert]
        by_cases hmem : d ∈ room.doors.keys
        · rw [if_pos hmem]
          exact hwf
        · rw [if_neg hmem]
          constructor
          · intro k hk
            rcases List.mem_append.mp hk with hk1 | hk2
            · exact hwf.1 k hk1
            · rw [List.mem_singleton.mp hk2]
              exact hvalid
          · rw [List.nodup_append]
            refine ⟨hwf.2, List.nodup_singleton d, ?_⟩
            intro a ha ha2
            rw [List.mem_singleton] at ha2
            exact hmem (ha2 ▸ ha)
    | render => exact hwf
    | autoBuild w h => exact hwf
    | circle rad => exact hwf
    | lShape w h l => exact hwf
    | floorplan rows => exact hwf
    | reset w h => exact hwf
  · intro direction gp dest room' hsome hok
    obtain ⟨hdoors, hvalid, hsize, hexits⟩ := add_door_ok_doors room direction gp dest room' hok
    have hmem : direction ∈ room.doors.keys :=
      (PyDict.get?_isSome_iff_mem_keys room.doors direction).mp hsome
    refine ⟨?_, ?_, ?_⟩
    · rw [hdoors, PyDict.keys_insert, if_pos hmem]
    · rw [hdoors, PyDict.size_insert, if_pos hmem]
    · intro hs
      rw [hexits, if_pos hs]
  · intro direction gp dest herr d hd
    have h10 : 10 ≤ room.doors.size := by
      by_contra h10
      unfold GridRoom.add_door at herr
      rw [if_neg h10] at herr
      by_cases hv : direction ∉ valid_directions
      · rw [if_pos hv] at herr
        exact invalid_ne_max direction (Except.error.inj herr)
      · rw [if_neg hv] at herr
        exact Except.noConfusion herr
    have hperm : room.doors.keys.Perm valid_directions := by
      refine hsubperm.perm_of_length_le ?_
      rw [hkeyslen]
      simpa [valid_directions] using h10
    exact (PyDict.get?_isSome_iff_mem_keys room.doors d).mpr (hperm.mem_iff.mpr hd)

/-- C10 witness: a room with one well-formed door satisfies the invariant
consequences; in particular its registry stays within the limit. -/
theorem door_registry_invariant_witness :
    ({ GridRoom.created with
        doors := ⟨[("north", ⟨(2, 3), "hall"⟩)]⟩ } : GridRoom).doors.size ≤ 10 :=
  (door_registry_invariant
      { GridRoom.created with doors := ⟨[("north", ⟨(2, 3), "hall"⟩)]⟩ }
      (by constructor
          · intro k hk
            simp only [PyDict.keys, List.map_cons, List.map_nil, List.mem_singleton] at hk
            rw [hk]
            decide
          · decide)).1

theorem foldl_append_shift (l : List String) (s : String) :
    l.foldl (fun r t => r ++ t) s = s ++ l.foldl (fun r t => r ++ t) "" := by
  induction l generalizing s with
  | nil => simp
  | cons a t ih =>
    rw [List.foldl_cons, List.foldl_cons, ih (s ++ a), ih ("" ++ a),
      String.empty_append, String.append_assoc]

theorem string_join_cons (a : String) (l : List String) :
    String.join (a :: l) = a ++ String.join l := by
  show (a :: l).foldl (fun r t => r ++ t) "" = _
  rw [List.foldl_cons, String.empty_append]
  exact foldl_append_shift l a

/-- A fold that appends a rendered piece per element is the join of the
rendered pieces. -/
theorem foldl_append_eq_join {α : Type} (l : List α) (f : String → α → String)
    (g : α → String) (hf : ∀ s a, f s a = s ++ g a) (s : String) :
    l.foldl f s = s ++ String.join (l.map g) := by
  induction l generalizing s with
  | nil => simp [String.join]
  | cons a t ih =>
    rw [List.foldl_cons, hf, ih, List.map_cons, string_join_cons, String.append_assoc]

/-- C7: rendering an empty grid yields the fixed message; otherwise the
output is the rows from the maximal `y` key down to 0, each row the columns
from 0 to the maximal `x` key, where an unset cell renders as a space and a
cell carrying a recorded door renders as the uppercased first letter of the
door's direction — the last-registered door at a shared position winning —
in precedence over the stored symbol. -/
theorem render_grid_spec (room : GridRoom) :
    (room.grid.entries = [] → room.render_grid = "The grid is empty.")
  ∧ (room.grid.entries ≠ [] →
      room.render_grid =
        String.join ((downTo0 (listMax (room.grid.keys.map (fun k => k.2)))).map
          (fun y =>
            String.join ((upTo (listMax (room.grid.keys.map (fun k => k.1)))).map
              (fun x =>
                match (room.doors.entries.reverse.find?
                    (fun e => decide (e.2.grid_position = (x, y)))).map
                    (fun e => String.singleton (pyFirst (pyUpper e.1))) with
                | some letter => letter
                | none => (room.grid.get? (x, y)).getD " ")) ++ "\n"))) := by
  constructor
  · intro h
    unfold GridRoom.render_grid
    rw [if_pos (by simp [h])]
  · intro h
    unfold GridRoom.render_grid
    rw [if_neg (by simpa using h)]
    have hcell : ∀ (x y : Int),
        ((room.doors.entries.foldl
            (fun acc e => acc.insert e.2.grid_position
              (String.singleton (pyFirst (pyUpper e.1)))) PyDict.empty).get? (x, y)) =
          (room.doors.entries.reverse.find?
              (fun e => decide (e.2.grid_position = (x, y)))).map
            (fun e => String.singleton (pyFirst (pyUpper e.1))) := by
      intro x y
      rw [PyDict.get?_foldl_insert room.doors.entries
        (fun e => e.2.grid_position)
        (fun e => String.singleton (pyFirst (pyUpper e.1))) PyDict.empty (x, y)]
      cases hfind : room.doors.entries.reverse.find?
          (fun e => decide (e.2.grid_position = (x, y))) with
      | some e => rfl
      | none => rfl
    refine (foldl_append_eq_join _ _ _ ?_ "").trans (String.empty_append _)
    intro out y
    dsimp only
    rw [foldl_append_eq_join _ _
      (fun x =>
        match (room.doors.entries.reverse.find?
            (fun e => decide (e.2.grid_position = (x, y)))).map
            (fun e => String.singleton (pyFirst (pyUpper e.1))) with
        | some letter => letter
        | none => (room.grid.get? (x, y)).getD " ") ?_ ""]
    · rw [String.empty_append, String.append_assoc]
    · intro row x
      dsimp only
      rw [hcell x y]
      cases room.doors.entries.reverse.find?
          (fun e => decide (e.2.grid_position = (x, y))) with
      | some e => rfl
      | none => rfl

set_option maxRecDepth 20000 in
/-- C7 witness: the empty grid renders the fixed message, and in a 5×5
auto-built room a north door at (2, 3) renders as `N` at column 2 of the
`y = 3` row, overriding the stored `.` symbol. -/
theorem render_grid_spec_witness :
    GridRoom.created.render_grid = "The grid is empty."
    ∧ ({ GridRoom.created.auto_build_grid 5 5 with
          doors := ⟨[("north", ⟨(2, 3), "hall"⟩)]⟩ } : GridRoom).render_grid =
        "#####\n#.N.#\n#...#\n#...#\n#####\n" :=
  ⟨(render_grid_spec GridRoom.created).1 rfl,
   ((render_grid_spec
        { GridRoom.created.auto_build_grid 5 5 with
          doors := ⟨[("north", ⟨(2, 3), "hall"⟩)]⟩ }).2 (by decide)).trans (by decide)⟩

end Dragheim
